import Mathlib

/-!
Verification development for the hybrid retrieval-and-generation pipeline
(`app.py`, `scripts/hybrid_chat.py`, `scripts/pinecone_upload.py`,
`scripts/config.py`).

The external collaborators (embedding model, Pinecone vector store, Neo4j
graph store, Groq chat completion) are modelled as oracle parameters: a
fallible external call becomes a function into `Option`/`Except`/an outcome
inductive, and each Python function is translated into a pure Lean function
over those oracles.  Python floats are modelled as `ℚ` (scores) or `ℝ`
(embedding components, where square roots are needed); Python dicts used as
insertion-ordered maps are modelled as association lists in insertion order.
-/

/-- Configuration constant `SCORE_THRESHOLD = 0.7` (`config.py`,
`app.py` line 77, `hybrid_chat.py` line 64). -/
def SCORE_THRESHOLD : ℚ := 0.7

/-- Configuration constant `CACHE_MAX_SIZE = 1000` (`config.py` line 29,
`hybrid_chat.py` line 28). -/
def CACHE_MAX_SIZE : Nat := 1000

/-- A Pinecone match as consumed by this code: an id, an optional similarity
score (the code reads it with `m.get("score", 0)`, so an absent score acts
as `0`), and the metadata fields the prompt builders read via
`meta.get("name", "")`, `meta.get("type", "")` and `meta.get("city")`
(absent values act as `""`). -/
structure Match where
  id : String
  score : Option ℚ
  name : String
  mtype : String
  city : String
deriving DecidableEq

/-- The effective score of a match, as read by `m.get("score", 0)`. -/
def effScore (m : Match) : ℚ := m.score.getD 0

/-- Python slicing `s[:n]` on a string: the first `n` code points.  (Written
via the character list so concrete instances evaluate.) -/
def strTake (s : String) (n : Nat) : String := ⟨s.data.take n⟩

/-- Lookup in an insertion-ordered association list, modelling
`text in cache` / `cache[text]` on a Python dict. -/
def cacheLookup {α V : Type} [DecidableEq α] (cache : List (α × V)) (k : α) :
    Option V :=
  (cache.find? (fun e => decide (e.1 = k))).map (·.2)

namespace HybridChat

/-- Function `embed_text` of `scripts/hybrid_chat.py` (lines 30-56).
The oracle `model` stands for the external call chain
`tokenizer`/`embedding_model`/normalisation that produces the stored list
(`(vec / norm).tolist()` or `vec.tolist()`): it is deterministic in the
input text.  Returns the vector, the new cache, and whether the external
model was invoked (`false` on a cache hit).  On a miss, when the cache has
reached `maxSize` entries, `embedding_cache.pop(next(iter(embedding_cache)))`
removes the oldest-inserted entry (head of the insertion-ordered list)
before the new entry is appended; a hit leaves the cache untouched (Python
dict reads do not reorder keys). -/
def embed_text {α V : Type} [DecidableEq α] (model : α → V) (maxSize : Nat)
    (cache : List (α × V)) (text : α) : V × List (α × V) × Bool :=
  match cacheLookup cache text with
  | some v => (v, cache, false)
  | none =>
    let normalized := model text
    let cache' := if maxSize ≤ cache.length then cache.drop 1 else cache
    (normalized, cache' ++ [(text, normalized)], true)

/-- The embedding cache reached by starting from the empty dict
(`embedding_cache = {}`) and running `embed_text` on each text in turn. -/
def cache_after {α V : Type} [DecidableEq α] (model : α → V) (maxSize : Nat)
    (texts : List α) : List (α × V) :=
  texts.foldl (fun c t => (embed_text model maxSize c t).2.1) []

/-- Function `pinecone_query` of `scripts/hybrid_chat.py` (lines 66-80).
`embed` is the outcome of `embed_text(query_text)` (which propagates any
model exception, caught here by the surrounding `try`), `store` the outcome
of `index.query(...)` followed by `res.get("matches", [])` (an absent
`matches` key is already the empty list).  Any error gives `[]`. -/
def pinecone_query (embed : Except Unit (List ℚ))
    (store : List ℚ → Except Unit (List Match)) : List Match :=
  match embed with
  | .error _ => []
  | .ok vec =>
    match store vec with
    | .error _ => []
    | .ok ms => ms.filter (fun m => decide (SCORE_THRESHOLD ≤ effScore m))

/-- One row of the per-id Cypher query in `fetch_graph_context`
(`hybrid_chat.py` lines 89-94): `rel`, `labels`, `id`, `name`, `type`,
`description` (nullable, the code reads it as `r["description"] or ""`). -/
structure Row where
  rel : String
  labels : List String
  id : String
  name : String
  rtype : String
  description : Option String
deriving DecidableEq

/-- The fact dict appended per row (`hybrid_chat.py` lines 97-104),
including the 400-character truncation of the description. -/
structure GraphFact where
  source : String
  rel : String
  target_id : String
  target_name : String
  target_desc : String
  labels : List String
deriving DecidableEq

/-- Outcome of the per-id `session.run` plus row iteration: either the list
of returned rows, or an exception (caught by the inner `except`, which
logs and continues with the next id). -/
inductive IdQueryOutcome : Type where
  | rows (rs : List Row)
  | fail
deriving DecidableEq

/-- The fact built from one row for source id `nid`
(`hybrid_chat.py` lines 97-104). -/
def factOfRow (nid : String) (r : Row) : GraphFact :=
  { source := nid
    rel := r.rel
    target_id := r.id
    target_name := r.name
    target_desc := strTake (r.description.getD "") 400
    labels := r.labels }

/-- The per-id loop body of `fetch_graph_context` (`hybrid_chat.py`
lines 87-107): each id is queried in order; an id whose query fails is
skipped and contributes no facts. -/
def run_ids (outcome : String → IdQueryOutcome) : List String → List GraphFact
  | [] => []
  | nid :: rest =>
    match outcome nid with
    | .rows rs => rs.map (factOfRow nid) ++ run_ids outcome rest
    | .fail => run_ids outcome rest

/-- Function `fetch_graph_context` of `scripts/hybrid_chat.py`
(lines 82-112).  `sessionFailAfter = some k` models a session-level
connection failure escaping to the outer `except` after the first `k` ids
have been processed (e.g. `driver.session()` itself failing gives `k = 0`):
the function then returns the facts accumulated so far.
`sessionFailAfter = none` is a healthy session.  The second component is
the list of ids for which a per-id query was issued against the store. -/
def fetch_graph_context (sessionFailAfter : Option Nat)
    (outcome : String → IdQueryOutcome) (node_ids : List String) :
    List GraphFact × List String :=
  match sessionFailAfter with
  | none => (run_ids outcome node_ids, node_ids)
  | some k => (run_ids outcome (node_ids.take k), node_ids.take k)

/-- One vector-context line of `build_prompt` (`hybrid_chat.py`
lines 129-135), including the conditional `| City:` suffix for a truthy
city.  `fmtScore` stands for the float formatting `f"{score:.3f}"`. -/
def vec_line (fmtScore : ℚ → String) (m : Match) : String :=
  let snippet := "- [Node " ++ m.id ++ "] " ++ m.name ++ " (" ++ m.mtype ++
    ") - Score: " ++ fmtScore (effScore m)
  if m.city = "" then snippet else snippet ++ " | City: " ++ m.city

/-- One graph-context line of `build_prompt` (`hybrid_chat.py`
lines 137-140). -/
def graph_line (f : GraphFact) : String :=
  "- Node " ++ f.source ++ " --[" ++ f.rel ++ "]--> Node " ++ f.target_id ++
    ": " ++ f.target_name ++ " - " ++ strTake f.target_desc 100 ++ "..."

/-- The user-role message content assembled by `build_prompt` of
`scripts/hybrid_chat.py` (lines 142-151): the query, then the two context
sections (vector lines capped at 10, graph lines built from the first 20
facts), then the closing instruction.  There is no empty-context fallback
in this builder. -/
def build_prompt_user (fmtScore : ℚ → String) (user_query : String)
    (pinecone_matches : List Match) (graph_facts : List GraphFact) : String :=
  let vec_context := pinecone_matches.map (vec_line fmtScore)
  let graph_context := (graph_facts.take 20).map graph_line
  "User Query: " ++ user_query ++ "\n\n" ++
    "=== Semantic Search Results (Vector DB) ===\n" ++
    String.intercalate "\n" (vec_context.take 10) ++ "\n\n" ++
    "=== Graph Relationships (Knowledge Graph) ===\n" ++
    String.intercalate "\n" graph_context ++ "\n\n" ++
    "Based on the above information, provide a comprehensive answer. " ++
    "Include specific node IDs and explain your reasoning step-by-step."

/-- The fixed model used by `call_groq_chat` of `scripts/hybrid_chat.py`
(line 162). -/
def groq_model : String := "llama-3.3-70b-versatile"

/-- The fixed apology returned by `call_groq_chat` of
`scripts/hybrid_chat.py` (line 170) when the completion call fails. -/
def groq_apology : String :=
  "I apologize, but I\x27m having trouble generating a response right now. Please try again."

end HybridChat

/-- Outcome of one chat-completion call
(`client.chat.completions.create(...)` followed by
`response.choices[0].message.content`): the returned text, or any
exception raised on the way (timeout, quota, unavailable model, malformed
response). -/
inductive GenOutcome : Type where
  | ok (text : String)
  | err
deriving DecidableEq

namespace HybridChat

/-- Function `call_groq_chat` of `scripts/hybrid_chat.py` (lines 154-170):
one completion call against the single model `groq_model`; on any failure
the `except` returns the fixed apology instead of raising. -/
def call_groq_chat (complete : String → GenOutcome) : String :=
  match complete groq_model with
  | .ok t => t
  | .err => groq_apology

end HybridChat

namespace App

/-- Function `embed_text` of `app.py` (lines 79-97).  The cache here is a
plain unbounded dict: there is no size check and no eviction.  On a model
exception the function logs and returns `None`, leaving the cache
unchanged (the oracle `model` returns `none` for a failing call).  The
third component records whether the external model was invoked. -/
def embed_text {α V : Type} [DecidableEq α] (model : α → Option V)
    (cache : List (α × V)) (text : α) : Option V × List (α × V) × Bool :=
  match cacheLookup cache text with
  | some v => (some v, cache, false)
  | none =>
    match model text with
    | none => (none, cache, true)
    | some v => (some v, cache ++ [(text, v)], true)

/-- The cache reached from the empty `embedding_cache = {}` of `app.py`
after running `embed_text` on each text in turn. -/
def cache_after {α V : Type} [DecidableEq α] (model : α → Option V)
    (texts : List α) : List (α × V) :=
  texts.foldl (fun c t => (embed_text model c t).2.1) []

/-- Function `pinecone_query` of `app.py` (lines 99-117).  `indexOk` models
`index is not None`; `embed` is the result of `embed_text` (`none` on an
embedding failure); `store` is `index.query(...)` plus
`res.get("matches", [])`.  Every failure path returns `[]`. -/
def pinecone_query (indexOk : Bool) (embed : Option (List ℚ))
    (store : List ℚ → Except Unit (List Match)) : List Match :=
  if !indexOk then []
  else
    match embed with
    | none => []
    | some vec =>
      match store vec with
      | .error _ => []
      | .ok ms => ms.filter (fun m => decide (SCORE_THRESHOLD ≤ effScore m))

/-- One row of the per-id Cypher query in `fetch_graph_context` of `app.py`
(lines 133-137): `rel`, `id`, `name`, `type`, `description` (nullable). -/
structure Row where
  rel : String
  id : String
  name : String
  rtype : String
  description : Option String
deriving DecidableEq

/-- The fact dict appended per row (`app.py` lines 140-146), including the
200-character truncation of the description. -/
structure GraphFact where
  source : String
  rel : String
  target_id : String
  target_name : String
  target_desc : String
deriving DecidableEq

/-- Outcome of the per-id `session.run` plus row iteration in `app.py`. -/
inductive IdQueryOutcome : Type where
  | rows (rs : List Row)
  | fail
deriving DecidableEq

/-- The fact built from one row for source id `nid` (`app.py`
lines 140-146). -/
def factOfRow (nid : String) (r : Row) : GraphFact :=
  { source := nid
    rel := r.rel
    target_id := r.id
    target_name := r.name
    target_desc := strTake (r.description.getD "") 200 }

/-- The per-id loop body of `fetch_graph_context` (`app.py` lines 131-149). -/
def run_ids (outcome : String → IdQueryOutcome) : List String → List GraphFact
  | [] => []
  | nid :: rest =>
    match outcome nid with
    | .rows rs => rs.map (factOfRow nid) ++ run_ids outcome rest
    | .fail => run_ids outcome rest

/-- Function `fetch_graph_context` of `app.py` (lines 119-153).  Unlike the
`hybrid_chat.py` variant it guards on `driver is None` and on an empty id
list before touching the store.  `sessionFailAfter` is as in
`HybridChat.fetch_graph_context`.  The second component lists the ids for
which a store query was issued. -/
def fetch_graph_context (driverOk : Bool) (sessionFailAfter : Option Nat)
    (outcome : String → IdQueryOutcome) (node_ids : List String) :
    List GraphFact × List String :=
  if !driverOk then ([], [])
  else if node_ids = [] then ([], [])
  else
    match sessionFailAfter with
    | none => (run_ids outcome node_ids, node_ids)
    | some k => (run_ids outcome (node_ids.take k), node_ids.take k)

/-- One vector-context line of `build_prompt` (`app.py` lines 164-169).
`fmtScore` stands for the float formatting `f"{score:.3f}"`. -/
def vec_line (fmtScore : ℚ → String) (m : Match) : String :=
  "- [Node " ++ m.id ++ "] " ++ m.name ++ " (" ++ m.mtype ++
    ") - Relevance: " ++ fmtScore (effScore m)

/-- One graph-context line of `build_prompt` (`app.py` lines 171-174). -/
def graph_line (f : GraphFact) : String :=
  "- Node " ++ f.source ++ " --[" ++ f.rel ++ "]--> Node " ++ f.target_id ++
    ": " ++ f.target_name

/-- The notice `build_prompt` of `app.py` substitutes when no context at
all was assembled (line 183), without its trailing blank line. -/
def no_context_notice : String :=
  "No specific context available. Use your general knowledge about Vietnam."

/-- The context section assembled by `build_prompt` of `app.py`
(lines 176-183): the vector block (first 8 lines) if any vector context
exists, then the graph block if any graph context exists; when both are
missing, the whole (empty) section is replaced by the no-context notice. -/
def context_section (vec_context graph_context : List String) : String :=
  let s1 : String :=
    if vec_context = [] then ""
    else "Vector Search Results:\n" ++ String.intercalate "\n" (vec_context.take 8) ++ "\n\n"
  let s2 : String :=
    if graph_context = [] then s1
    else s1 ++ "Graph Relationships:\n" ++ String.intercalate "\n" graph_context ++ "\n\n"
  if s2 = "" then no_context_notice ++ "\n\n" else s2

/-- The user-role message content assembled by `build_prompt` of `app.py`
(lines 185-192): query, context section, closing instruction. -/
def build_prompt_user (fmtScore : ℚ → String) (user_query : String)
    (pMatches : List Match) (graph_facts : List GraphFact) : String :=
  let vec_context := pMatches.map (vec_line fmtScore)
  let graph_context := (graph_facts.take 15).map graph_line
  "User Query: " ++ user_query ++ "\n\n" ++
    context_section vec_context graph_context ++
    "Provide a comprehensive, helpful answer with specific recommendations."

/-- The ordered candidate model list of `call_groq_chat` in `app.py`
(lines 203-207). -/
def models_to_try : List String :=
  ["llama-3.3-70b-versatile", "llama-3.1-8b-instant", "gemma2-9b-it"]

/-- The fixed apology returned by `call_groq_chat` of `app.py` (line 230)
when every candidate fails. -/
def groq_apology : String :=
  "Sorry, I\x27m having trouble generating a response right now. Please try again in a moment."

/-- The inner candidate loop of `call_groq_chat` (`app.py` lines 209-223):
try each model in order, return the first successful text; record every
model actually called.  Returns `none` when every candidate failed (the
code then re-raises the last error into the outer handler). -/
def try_models (complete : String → GenOutcome) :
    List String → Option String × List String
  | [] => (none, [])
  | m :: rest =>
    match complete m with
    | .ok t => (some t, [m])
    | .err =>
      let r := try_models complete rest
      (r.1, m :: r.2)

/-- Function `call_groq_chat` of `app.py` (lines 194-230): sequential
fallback over `models_to_try`; if every candidate fails, the re-raised last
error is caught by the outer `except`, which returns the fixed apology.
The second component lists the models actually called, in order. -/
def call_groq_chat (complete : String → GenOutcome) : String × List String :=
  match try_models complete models_to_try with
  | (some t, called) => (t, called)
  | (none, called) => (groq_apology, called)

end App

/-- Containment of `sub` in `s` as consecutive characters, written as an
executable scan so concrete instances evaluate: some window of `s` of the
length of `sub` equals `sub`. -/
def containsSub (s sub : List Char) : Bool :=
  (List.range (s.length + 1)).any (fun i => decide ((s.drop i).take sub.length = sub))

namespace Upload

/-- Function `normalize_vector` of `scripts/pinecone_upload.py`
(lines 47-54), restricted to a present vector (`vec is None` is handled at
the call sites by the `emb is not None` guards): divide by the L2 norm
unless that norm is zero.  The same computation appears inline in
`embed_text` of `app.py` (lines 90-91) and `hybrid_chat.py` (lines 43-47).
Components are modelled as real numbers. -/
noncomputable def l2norm (v : List ℝ) : ℝ :=
  Real.sqrt ((v.map (fun x => x * x)).sum)

/-- The normalized vector: `vec.tolist()` when the norm is zero, otherwise
`(vec / norm).tolist()`. -/
noncomputable def normalize_vector (v : List ℝ) : List ℝ :=
  if l2norm v = 0 then v else v.map (fun x => x / l2norm v)

/-- Trace of one `upsert_with_retry` call: the returned pair
`(result, error)` of `scripts/pinecone_upload.py` lines 56-70, together
with the 0-based indices of the attempts actually made and the delays
passed to `time.sleep`, in order. -/
structure RetryTrace (R : Type) where
  result : Option R
  error : Option String
  attempts : List Nat
  sleeps : List Nat
deriving DecidableEq

/-- The `for attempt in range(max_retries)` loop of `upsert_with_retry`
(`pinecone_upload.py` lines 58-69), recursing on the number of remaining
iterations: a successful attempt returns `(result, None)` at once; a failed
attempt sleeps `delay` and doubles it unless it was the last one, in which
case `(None, error)` is returned.  `attempt` is the store-call oracle,
indexed by attempt number. -/
def retry_loop {R : Type} (attempt : Nat → Except String R) :
    Nat → Nat → Nat → RetryTrace R
  | 0, _, _ => ⟨none, some "Max retries exceeded", [], []⟩
  | remaining + 1, i, delay =>
    match attempt i with
    | .ok res => ⟨some res, none, [i], []⟩
    | .error e =>
      if remaining = 0 then ⟨none, some e, [i], []⟩
      else
        let t := retry_loop attempt remaining (i + 1) (delay * 2)
        ⟨t.result, t.error, i :: t.attempts, delay :: t.sleeps⟩

/-- Function `upsert_with_retry` of `scripts/pinecone_upload.py`
(lines 56-70), with its default arguments `max_retries=3`, `retry_delay=2`
passed explicitly. -/
def upsert_with_retry {R : Type} (attempt : Nat → Except String R)
    (max_retries retry_delay : Nat) : RetryTrace R :=
  retry_loop attempt max_retries 0 retry_delay

/-- A source record of the ingestion dataset as read by the preparation
loop (`pinecone_upload.py` lines 123-149): `node["id"]` (already converted
by `str(...)`), the optional `semantic_text` and `description` fields. -/
structure SourceRecord where
  id : String
  semantic_text : Option String
  description : Option String
deriving DecidableEq

/-- The semantic text computed on line 125:
`node.get("semantic_text") or (node.get("description") or "")[:1000]` —
a missing or falsy (empty) `semantic_text` falls back to the description
truncated to 1000 characters. -/
def computed_text (n : SourceRecord) : String :=
  match n.semantic_text with
  | some s => if s = "" then strTake (n.description.getD "") 1000 else s
  | none => strTake (n.description.getD "") 1000

/-- Python blankness test `not text.strip()`: every character is
whitespace. -/
def is_blank (s : String) : Bool := s.data.all Char.isWhitespace

/-- The preparation loop of `pinecone_upload.py` (lines 119-149), with the
accumulators `seen_ids`, `items` (kept as `(id, semantic_text)` pairs; the
metadata dict is not relevant to the claims) and `skipped` made explicit.
A record with blank computed text is skipped (without reserving its id);
then a record whose id is already in `seen_ids` is skipped; otherwise the
id is recorded and the item appended. -/
def prepare_items : List SourceRecord → List String → List (String × String) →
    Nat → List (String × String) × Nat
  | [], _, items, skipped => (items, skipped)
  | n :: rest, seen, items, skipped =>
    let t := computed_text n
    if is_blank t then prepare_items rest seen items (skipped + 1)
    else if n.id ∈ seen then prepare_items rest seen items (skipped + 1)
    else prepare_items rest (n.id :: seen) (items ++ [(n.id, t)]) skipped

/-- The whole preparation pass, started from the empty accumulators
(`items = []`, `skipped = 0`, `seen_ids = set()`). -/
def prepare (nodes : List SourceRecord) : List (String × String) × Nat :=
  prepare_items nodes [] [] 0

/-- The per-batch contribution to the `(successful_upserts, failed_upserts)`
tally in the batch loop of `pinecone_upload.py` (lines 175-205): a batch
with no valid embeddings adds its full size to the failed count; otherwise
only the surviving vectors are counted, on the side given by the upsert
outcome.  `embedOk` tells which items survive embedding
(`get_embedding`/`normalize_vector` returning a vector rather than `None`);
`upsertOk` is the final outcome of `upsert_with_retry` for this batch. -/
def batch_contrib {α : Type} (embedOk : α → Bool) (upsertOk : Bool)
    (b : List α) : Nat × Nat :=
  let valid := b.filter embedOk
  if valid.length = 0 then (0, b.length)
  else if upsertOk then (valid.length, 0) else (0, valid.length)

/-- The batch upload loop of `pinecone_upload.py` (lines 160-212) over an
already-chunked list of batches, threading the batch index (which selects
the per-batch upsert outcome `upsertOk k`) and the two counters.  Every
batch is processed: a failed or empty batch only updates the counters and
the loop continues. -/
def process_batches {α : Type} (embedOk : α → Bool) (upsertOk : Nat → Bool) :
    List (List α) → Nat → Nat → Nat → Nat × Nat
  | [], _, succ, failed => (succ, failed)
  | b :: rest, k, succ, failed =>
    let valid := b.filter embedOk
    if valid.length = 0 then
      process_batches embedOk upsertOk rest (k + 1) succ (failed + b.length)
    else if upsertOk k then
      process_batches embedOk upsertOk rest (k + 1) (succ + valid.length) failed
    else
      process_batches embedOk upsertOk rest (k + 1) succ (failed + valid.length)

/-- The totals accumulated by `process_batches` from a given starting batch
index, batch by batch. -/
def run_totals {α : Type} (embedOk : α → Bool) (upsertOk : Nat → Bool) :
    List (List α) → Nat → Nat × Nat
  | [], _ => (0, 0)
  | b :: rest, k =>
    let c := batch_contrib embedOk (upsertOk k) b
    let t := run_totals embedOk upsertOk rest (k + 1)
    (c.1 + t.1, c.2 + t.2)

/-- The total number of prepared items across all batches (the batches are
the `BATCH_SIZE` chunks of the prepared item list, so this is the prepared
item count). -/
def total_items {α : Type} (bs : List (List α)) : Nat := (bs.map List.length).sum

end Upload

/-! Concrete oracle instances and inputs used by the witness and
counterexample theorems below. -/

/-- The four matches of the specification example, with scores
0.9, 0.75, 0.65, 0.5. -/
def c1m1 : Match := { id := "m1", score := some (9/10), name := "", mtype := "", city := "" }

/-- Second example match (score 0.75). -/
def c1m2 : Match := { id := "m2", score := some (3/4), name := "", mtype := "", city := "" }

/-- Third example match (score 0.65). -/
def c1m3 : Match := { id := "m3", score := some (13/20), name := "", mtype := "", city := "" }

/-- Fourth example match (score 0.5). -/
def c1m4 : Match := { id := "m4", score := some (1/2), name := "", mtype := "", city := "" }

/-- The store result list of the specification example, in relevance
order. -/
def c1Matches : List Match := [c1m1, c1m2, c1m3, c1m4]

/-- A store oracle returning the example matches for any vector. -/
def c1store : List ℚ → Except Unit (List Match) := fun _ => .ok c1Matches

/-- A fixed stand-in for the `f"{score:.3f}"` float formatting. -/
def constFmt : ℚ → String := fun _ => "0.000"

/-- The cache holding the keys `0, …, n-1` in insertion order. -/
def natCache (n : Nat) : List (ℕ × Unit) :=
  (List.range n).map (fun k => (k, ()))

/-- An always-successful embedding oracle over natural-number keys for the
`app.py` cache. -/
def unitModelApp : ℕ → Option Unit := fun _ => some ()

/-- An embedding oracle over natural-number keys for the `hybrid_chat.py`
cache. -/
def unitModelChat : ℕ → Unit := fun _ => ()

/-- A completion oracle realising the specification example: the first two
candidates fail, the third succeeds. -/
def c3complete : String → GenOutcome :=
  fun m => if m = "gemma2-9b-it" then .ok "fallback answer" else .err

/-- A completion oracle on which every model fails. -/
def c3allFail : String → GenOutcome := fun _ => .err

/-- A neighbour row for entity `a` in the graph-expansion example. -/
def c5rowA : HybridChat.Row :=
  { rel := "NEAR", labels := ["Entity"], id := "node_7", name := "My Khe Beach",
    rtype := "place", description := some "a beach" }

/-- A neighbour row for entity `b` in the graph-expansion example. -/
def c5rowB : HybridChat.Row :=
  { rel := "IN_CITY", labels := ["Entity"], id := "node_9", name := "Da Nang",
    rtype := "city", description := none }

/-- The per-id outcome oracle of the graph-expansion example: ids `a` and
`b` succeed with one row each, every other id (such as `missing`) raises. -/
def c5outcome : String → HybridChat.IdQueryOutcome :=
  fun nid =>
    if nid = "a" then .rows [c5rowA]
    else if nid = "b" then .rows [c5rowB]
    else .fail

/-- An upsert oracle failing on every attempt (the error of attempt `i`
is distinguishable so the returned error can be identified). -/
def c6attemptFail : Nat → Except String Unit :=
  fun i => .error (if i = 2 then "e2" else "e")

/-- An upsert oracle failing on attempts 0 and 1 and succeeding on
attempt 2, as in the specification example. -/
def c6attemptThird : Nat → Except String Unit :=
  fun i => if i = 2 then .ok () else .error "boom"

/-- A source record with id `x` whose computed semantic text is the single
space, i.e. blank. -/
def c7r1 : Upload.SourceRecord :=
  { id := "x", semantic_text := some " ", description := none }

/-- A later source record with the same id `x` and non-blank text. -/
def c7r2 : Upload.SourceRecord :=
  { id := "x", semantic_text := some "hello", description := none }

/-- A deterministic embedding oracle over natural-number keys. -/
def c9model : ℕ → List ℚ := fun n => [(n : ℚ)]

/-- The same oracle in the fallible shape used by `app.py`. -/
def c9modelApp : ℕ → Option (List ℚ) := fun n => some [(n : ℚ)]

/-- An embedding-success predicate under which only the item `1`
embeds successfully. -/
def c10embedOk : ℕ → Bool := fun n => decide (n = 1)

/-- An upsert oracle that succeeds for every batch. -/
def alwaysUpsertOk : Nat → Bool := fun _ => true

/-- An upsert oracle that fails (after its retries) for every batch. -/
def neverUpsertOk : Nat → Bool := fun _ => false

/-! Helper lemmas. -/

/-- Membership in the threshold filter forces a score at or above the
threshold. -/
theorem mem_filter_threshold {ms : List Match} {m : Match}
    (hm : m ∈ ms.filter (fun m => decide (SCORE_THRESHOLD ≤ effScore m))) :
    SCORE_THRESHOLD ≤ effScore m :=
  of_decide_eq_true (List.mem_filter.mp hm).2

/-- When every candidate fails, `try_models` returns `none` after calling
every model in order. -/
theorem try_models_all_fail (complete : String → GenOutcome) :
    ∀ ms : List String, (∀ m ∈ ms, complete m = .err) →
      App.try_models complete ms = (none, ms)
  | [], _ => rfl
  | m :: rest, h => by
    have hm : complete m = .err := h m (by simp)
    have ih := try_models_all_fail complete rest (fun x hx => h x (by simp [hx]))
    simp [App.try_models, hm, ih]

/-- When the first `i` candidates fail and candidate `i` succeeds,
`try_models` returns that candidate's text having called exactly the first
`i + 1` models. -/
theorem try_models_success (complete : String → GenOutcome) :
    ∀ (ms : List String) (i : Nat) (hi : i < ms.length) (t : String),
      (∀ j (hj : j < i), complete (ms.get ⟨j, Nat.lt_trans hj hi⟩) = .err) →
      complete (ms.get ⟨i, hi⟩) = .ok t →
      App.try_models complete ms = (some t, ms.take (i + 1))
  | [], i, hi, _, _, _ => absurd hi (Nat.not_lt_zero i)
  | m :: rest, 0, _, t, _, hok => by
    simp only [List.get] at hok
    simp [App.try_models, hok]
  | m :: rest, i + 1, hi, t, hfail, hok => by
    have hm : complete m = .err := hfail 0 (Nat.succ_pos i)
    have ih := try_models_success complete rest i (Nat.lt_of_succ_lt_succ hi) t
      (fun j hj => hfail (j + 1) (Nat.succ_lt_succ hj)) hok
    simp [App.try_models, hm, ih]

/-! Claim theorems. -/

/-- C1: `pinecone_query` (in both `hybrid_chat.py` and `app.py`) never
returns a match scoring below `SCORE_THRESHOLD`; on a successful retrieval
the returned list is exactly the threshold filter of the store's result
list, hence a sublist of it, preserving the store's relevance order; and
every failure path — uninitialised index, embedding failure, store error —
yields the empty list (the functions are total, so no exception escapes and
the result is never null). -/
theorem C1_score_filter_order_and_errors
    (embedC : Except Unit (List ℚ)) (embedA : Option (List ℚ)) (indexOk : Bool)
    (store : List ℚ → Except Unit (List Match)) :
    (∀ m ∈ HybridChat.pinecone_query embedC store, SCORE_THRESHOLD ≤ effScore m) ∧
    (∀ m ∈ App.pinecone_query indexOk embedA store, SCORE_THRESHOLD ≤ effScore m) ∧
    (∀ vec ms, embedC = .ok vec → store vec = .ok ms →
      HybridChat.pinecone_query embedC store
          = ms.filter (fun m => decide (SCORE_THRESHOLD ≤ effScore m)) ∧
      List.Sublist (HybridChat.pinecone_query embedC store) ms) ∧
    (∀ vec ms, indexOk = true → embedA = some vec → store vec = .ok ms →
      App.pinecone_query indexOk embedA store
          = ms.filter (fun m => decide (SCORE_THRESHOLD ≤ effScore m)) ∧
      List.Sublist (App.pinecone_query indexOk embedA store) ms) ∧
    (∀ e, embedC = .error e → HybridChat.pinecone_query embedC store = []) ∧
    (∀ vec e, embedC = .ok vec → store vec = .error e →
      HybridChat.pinecone_query embedC store = []) ∧
    (embedA = none → App.pinecone_query indexOk embedA store = []) ∧
    (∀ vec e, embedA = some vec → store vec = .error e →
      App.pinecone_query indexOk embedA store = []) := by
  refine ⟨?_, ?_, ?_, ?_, ?_, ?_, ?_, ?_⟩
  · intro m hm
    rcases embedC with e | vec
    · simp [HybridChat.pinecone_query] at hm
    · rcases hst : store vec with e | ms
      · simp [HybridChat.pinecone_query, hst] at hm
      · simp only [HybridChat.pinecone_query, hst] at hm
        exact mem_filter_threshold hm
  · intro m hm
    rcases indexOk with _ | _
    · simp [App.pinecone_query] at hm
    · rcases embedA with _ | vec
      · simp [App.pinecone_query] at hm
      · rcases hst : store vec with e | ms
        · simp [App.pinecone_query, hst] at hm
        · simp only [App.pinecone_query, hst, Bool.not_true, Bool.false_eq_true,
            if_false] at hm
          exact mem_filter_threshold hm
  · intro vec ms hvec hst
    subst hvec
    simp only [HybridChat.pinecone_query, hst]
    exact ⟨trivial, List.filter_sublist ms⟩
  · intro vec ms hidx hvec hst
    subst hvec hidx
    simp only [App.pinecone_query, hst, Bool.not_true, Bool.false_eq_true, if_false]
    exact ⟨trivial, List.filter_sublist ms⟩
  · intro e he
    subst he
    rfl
  · intro vec e hvec hst
    subst hvec
    simp [HybridChat.pinecone_query, hst]
  · intro he
    subst he
    cases indexOk <;> rfl
  · intro vec e hvec hst
    subst hvec
    cases indexOk
    · rfl
    · simp [App.pinecone_query, hst]

/-- Witness for C1 at the specification example: a store answering with
scores [0.9, 0.75, 0.65, 0.5] against threshold 0.7 yields exactly the
first two matches, in relevance order, in both variants. -/
theorem C1_score_filter_order_and_errors_witness :
    HybridChat.pinecone_query (.ok [1]) c1store = [c1m1, c1m2] ∧
    App.pinecone_query true (some [1]) c1store = [c1m1, c1m2] := by
  have h := C1_score_filter_order_and_errors (.ok [1]) (some [1]) true c1store
  have h1 := (h.2.2.1 [1] c1Matches rfl rfl).1
  have h2 := (h.2.2.2.1 [1] c1Matches rfl rfl rfl).1
  refine ⟨?_, ?_⟩
  · rw [h1]
    norm_num [c1Matches, c1m1, c1m2, c1m3, c1m4, List.filter, effScore, SCORE_THRESHOLD]
  · rw [h2]
    norm_num [c1Matches, c1m1, c1m2, c1m3, c1m4, List.filter, effScore, SCORE_THRESHOLD]

/-- C3: the answer generator tries its ordered candidate list sequentially:
if the first `i` candidates fail and candidate `i` succeeds, its text is
returned at once and exactly the first `i + 1` models are called — none
after the successful one; if every candidate fails, the fixed user-safe
apology is returned (and the function is total, so nothing is raised to
the caller).  The `hybrid_chat.py` variant is the one-candidate instance
of the same contract. -/
theorem C3_sequential_model_fallback (complete : String → GenOutcome) :
    (∀ (i : Nat) (hi : i < App.models_to_try.length) (t : String),
      (∀ j (hj : j < i),
        complete (App.models_to_try.get ⟨j, Nat.lt_trans hj hi⟩) = .err) →
      complete (App.models_to_try.get ⟨i, hi⟩) = .ok t →
      App.call_groq_chat complete = (t, App.models_to_try.take (i + 1))) ∧
    ((∀ m ∈ App.models_to_try, complete m = .err) →
      App.call_groq_chat complete = (App.groq_apology, App.models_to_try)) ∧
    (∀ t, complete HybridChat.groq_model = .ok t →
      HybridChat.call_groq_chat complete = t) ∧
    (complete HybridChat.groq_model = .err →
      HybridChat.call_groq_chat complete = HybridChat.groq_apology) := by
  refine ⟨?_, ?_, ?_, ?_⟩
  · intro i hi t hfail hok
    unfold App.call_groq_chat
    rw [try_models_success complete App.models_to_try i hi t hfail hok]
  · intro hall
    unfold App.call_groq_chat
    rw [try_models_all_fail complete App.models_to_try hall]
  · intro t hok
    unfold HybridChat.call_groq_chat
    rw [hok]
  · intro herr
    unfold HybridChat.call_groq_chat
    rw [herr]

/-- Witness for C3 at the specification example: with candidates
[M1, M2, M3] where M1 and M2 fail and M3 succeeds, M3's text is returned
and all three (and only those) models were called; with every candidate
failing, the fixed apology is returned. -/
theorem C3_sequential_model_fallback_witness :
    App.call_groq_chat c3complete = ("fallback answer", App.models_to_try) ∧
    App.call_groq_chat c3allFail = (App.groq_apology, App.models_to_try) := by
  have h := C3_sequential_model_fallback c3complete
  have h2 := C3_sequential_model_fallback c3allFail
  refine ⟨?_, ?_⟩
  · have h1 := h.1 2 (by norm_num [App.models_to_try]) "fallback answer"
      (fun j hj => by interval_cases j <;> rfl) (by rfl)
    rw [h1]
    norm_num [App.models_to_try]
  · exact h2.2.1 (fun m _ => rfl)

/-- The per-id loop distributes over list append (`hybrid_chat.py`
variant). -/
theorem run_ids_append_chat (outcome : String → HybridChat.IdQueryOutcome) :
    ∀ xs ys, HybridChat.run_ids outcome (xs ++ ys)
      = HybridChat.run_ids outcome xs ++ HybridChat.run_ids outcome ys
  | [], ys => by simp [HybridChat.run_ids]
  | x :: xs, ys => by
    cases h : outcome x <;>
      simp [HybridChat.run_ids, h, run_ids_append_chat outcome xs ys]

/-- The per-id loop distributes over list append (`app.py` variant). -/
theorem run_ids_append_app (outcome : String → App.IdQueryOutcome) :
    ∀ xs ys, App.run_ids outcome (xs ++ ys)
      = App.run_ids outcome xs ++ App.run_ids outcome ys
  | [], ys => by simp [App.run_ids]
  | x :: xs, ys => by
    cases h : outcome x <;>
      simp [App.run_ids, h, run_ids_append_app outcome xs ys]

/-- C5: graph expansion is total (no exception escapes) and isolates
failures: an id whose per-id query fails contributes zero facts while the
facts of the surrounding ids are still returned, in order; a session-level
connection failure after `k` processed ids returns exactly the facts
accumulated for those ids — a prefix of the full result, not
all-or-nothing; and an empty id list yields an empty result with no per-id
store query issued (in `app.py` additionally guarded before any store
interaction). -/
theorem C5_graph_expansion_failure_isolation
    (outcome : String → HybridChat.IdQueryOutcome)
    (outcomeA : String → App.IdQueryOutcome)
    (driverOk : Bool) (sessionFail : Option Nat) :
    (∀ xs bad ys, outcome bad = .fail →
      (HybridChat.fetch_graph_context none outcome (xs ++ bad :: ys)).1
        = HybridChat.run_ids outcome xs ++ HybridChat.run_ids outcome ys) ∧
    (∀ xs bad ys, outcomeA bad = .fail →
      (App.fetch_graph_context true none outcomeA (xs ++ bad :: ys)).1
        = App.run_ids outcomeA xs ++ App.run_ids outcomeA ys) ∧
    (∀ k ids, (HybridChat.fetch_graph_context (some k) outcome ids).1
        = HybridChat.run_ids outcome (ids.take k) ∧
      ∃ tail, (HybridChat.fetch_graph_context none outcome ids).1
        = (HybridChat.fetch_graph_context (some k) outcome ids).1 ++ tail) ∧
    (HybridChat.fetch_graph_context sessionFail outcome [] = ([], []) ∧
      App.fetch_graph_context driverOk sessionFail outcomeA [] = ([], [])) := by
  refine ⟨?_, ?_, ?_, ?_, ?_⟩
  · intro xs bad ys hbad
    simp only [HybridChat.fetch_graph_context]
    rw [run_ids_append_chat]
    simp [HybridChat.run_ids, hbad]
  · intro xs bad ys hbad
    have hne : xs ++ bad :: ys ≠ [] := by simp
    simp only [App.fetch_graph_context, Bool.not_true, Bool.false_eq_true, if_false,
      if_neg hne]
    rw [run_ids_append_app]
    simp [App.run_ids, hbad]
  · intro k ids
    refine ⟨rfl, HybridChat.run_ids outcome (ids.drop k), ?_⟩
    simp only [HybridChat.fetch_graph_context]
    rw [← run_ids_append_chat, List.take_append_drop]
  · cases sessionFail <;> simp [HybridChat.fetch_graph_context, HybridChat.run_ids]
  · cases driverOk <;> cases sessionFail <;>
      simp [App.fetch_graph_context]

/-- Witness for C5 at the specification example: expanding
`["a", "missing", "b"]` where the query for `missing` fails returns
exactly the facts of `a` followed by the facts of `b`, and the empty input
yields no facts and no store query. -/
theorem C5_graph_expansion_failure_isolation_witness :
    (HybridChat.fetch_graph_context none c5outcome ["a", "missing", "b"]).1
      = [HybridChat.factOfRow "a" c5rowA, HybridChat.factOfRow "b" c5rowB] ∧
    HybridChat.fetch_graph_context none c5outcome [] = ([], []) := by
  have h := C5_graph_expansion_failure_isolation c5outcome
    (fun _ => App.IdQueryOutcome.fail) true none
  refine ⟨?_, ?_⟩
  · have h1 := h.1 ["a"] "missing" ["b"] (by decide)
    rw [show (["a", "missing", "b"] : List String) = ["a"] ++ "missing" :: ["b"] from rfl,
      h1]
    decide
  · exact (h.2.2.2).1

/-- The retry loop makes at most as many attempts as it has iterations
left. -/
theorem retry_attempts_length_le {R : Type} (attempt : Nat → Except String R) :
    ∀ (r i d : Nat), (Upload.retry_loop attempt r i d).attempts.length ≤ r := by
  intro r
  induction r with
  | zero => intro i d; simp [Upload.retry_loop]
  | succ r ih =>
    intro i d
    rcases h : attempt i with e | res
    · by_cases hr : r = 0
      · subst hr; simp [Upload.retry_loop, h]
      · simp only [Upload.retry_loop, h, hr, if_false]
        simpa using Nat.succ_le_succ (ih (i + 1) (d * 2))
    · simp [Upload.retry_loop, h]

/-- The delays slept by the retry loop grow geometrically from the initial
delay, doubling at each failed attempt. -/
theorem retry_sleeps_geometric {R : Type} (attempt : Nat → Except String R) :
    ∀ (r i d j : Nat), j < (Upload.retry_loop attempt r i d).sleeps.length →
      (Upload.retry_loop attempt r i d).sleeps.getD j 0 = d * 2 ^ j := by
  intro r
  induction r with
  | zero => intro i d j hj; simp [Upload.retry_loop] at hj
  | succ r ih =>
    intro i d j hj
    rcases h : attempt i with e | res
    · by_cases hr : r = 0
      · subst hr; simp [Upload.retry_loop, h] at hj
      · simp only [Upload.retry_loop, h, hr, if_false] at hj ⊢
        cases j with
        | zero => simp
        | succ j =>
          have hj' : j < (Upload.retry_loop attempt r (i + 1) (d * 2)).sleeps.length := by
            simpa using hj
          have ihj := ih (i + 1) (d * 2) j hj'
          simp only [List.getD_cons_succ, ihj, pow_succ]
          ring
    · simp [Upload.retry_loop, h] at hj

/-- The batch loop equals its starting counters plus the per-batch
contributions. -/
theorem process_batches_eq_totals {α : Type} (embedOk : α → Bool)
    (upsertOk : Nat → Bool) :
    ∀ (bs : List (List α)) (k s f : Nat),
      Upload.process_batches embedOk upsertOk bs k s f
        = (s + (Upload.run_totals embedOk upsertOk bs k).1,
           f + (Upload.run_totals embedOk upsertOk bs k).2)
  | [], k, s, f => by simp [Upload.process_batches, Upload.run_totals]
  | b :: rest, k, s, f => by
    have ih := process_batches_eq_totals embedOk upsertOk rest (k + 1)
    by_cases h0 : (b.filter embedOk).length = 0
    · simp only [Upload.process_batches, Upload.run_totals, Upload.batch_contrib,
        h0, if_pos, if_true]
      rw [ih]
      simp [Prod.ext_iff]
      omega
    · cases hk : upsertOk k
      · simp only [Upload.process_batches, Upload.run_totals, Upload.batch_contrib,
          h0, hk, if_false, Bool.false_eq_true]
        rw [ih]
        simp [Prod.ext_iff]
        omega
      · simp only [Upload.process_batches, Upload.run_totals, Upload.batch_contrib,
          h0, hk, if_false, if_true]
        rw [ih]
        simp [Prod.ext_iff]
        omega

/-- C6: `upsert_with_retry` makes at most `max_retries` (3) attempts; the
delay slept before each re-attempt starts at `retry_delay` (2 seconds) and
doubles after each failure (2s then 4s); a successful attempt returns the
result with no error at once; when all attempts fail, the function returns
an error value — `(None, error)` — instead of raising; and in the batch
loop a batch whose upsert failed adds its surviving vector count to
`failed_upserts` while processing continues with the remaining batches. -/
theorem C6_upsert_retry_backoff_and_isolation {R : Type} {α : Type}
    (attempt : Nat → Except String R) (embedOk : α → Bool) (upsertOk : Nat → Bool) :
    (∀ maxR d, (Upload.upsert_with_retry attempt maxR d).attempts.length ≤ maxR) ∧
    (∀ j, j < (Upload.upsert_with_retry attempt 3 2).sleeps.length →
      (Upload.upsert_with_retry attempt 3 2).sleeps.getD j 0 = 2 * 2 ^ j) ∧
    (∀ r, attempt 0 = .ok r →
      Upload.upsert_with_retry attempt 3 2 = ⟨some r, none, [0], []⟩) ∧
    (∀ e0 r, attempt 0 = .error e0 → attempt 1 = .ok r →
      Upload.upsert_with_retry attempt 3 2 = ⟨some r, none, [0, 1], [2]⟩) ∧
    (∀ e0 e1 r, attempt 0 = .error e0 → attempt 1 = .error e1 → attempt 2 = .ok r →
      Upload.upsert_with_retry attempt 3 2 = ⟨some r, none, [0, 1, 2], [2, 4]⟩) ∧
    (∀ e0 e1 e2, attempt 0 = .error e0 → attempt 1 = .error e1 → attempt 2 = .error e2 →
      Upload.upsert_with_retry attempt 3 2 = ⟨none, some e2, [0, 1, 2], [2, 4]⟩) ∧
    (∀ (b : List α) rest k s f, (b.filter embedOk).length ≠ 0 → upsertOk k = false →
      Upload.process_batches embedOk upsertOk (b :: rest) k s f
        = Upload.process_batches embedOk upsertOk rest (k + 1) s
            (f + (b.filter embedOk).length)) := by
  refine ⟨?_, ?_, ?_, ?_, ?_, ?_, ?_⟩
  · intro maxR d
    exact retry_attempts_length_le attempt maxR 0 d
  · intro j hj
    exact retry_sleeps_geometric attempt 3 0 2 j hj
  · intro r h0
    simp [Upload.upsert_with_retry, Upload.retry_loop, h0]
  · intro e0 r h0 h1
    simp [Upload.upsert_with_retry, Upload.retry_loop, h0, h1]
  · intro e0 e1 r h0 h1 h2
    simp [Upload.upsert_with_retry, Upload.retry_loop, h0, h1, h2]
  · intro e0 e1 e2 h0 h1 h2
    simp [Upload.upsert_with_retry, Upload.retry_loop, h0, h1, h2]
  · intro b rest k s f hvalid hk
    simp [Upload.process_batches, hvalid, hk]

/-- Witness for C6 at the specification example: an upsert failing on
attempts 1 and 2 and succeeding on attempt 3 returns the success with no
error, having slept 2s then 4s; an upsert failing on all three attempts
returns the last error without raising; and a batch of two surviving items
whose upsert is exhausted counts two failures and the run moves on. -/
theorem C6_upsert_retry_backoff_and_isolation_witness :
    Upload.upsert_with_retry c6attemptThird 3 2
      = ⟨some (), none, [0, 1, 2], [2, 4]⟩ ∧
    Upload.upsert_with_retry c6attemptFail 3 2
      = ⟨none, some "e2", [0, 1, 2], [2, 4]⟩ ∧
    Upload.process_batches c10embedOk neverUpsertOk [[0, 1]] 0 0 0 = (0, 1) := by
  have h3 := C6_upsert_retry_backoff_and_isolation c6attemptThird c10embedOk neverUpsertOk
  have hf := C6_upsert_retry_backoff_and_isolation c6attemptFail c10embedOk neverUpsertOk
  refine ⟨?_, ?_, ?_⟩
  · exact h3.2.2.2.2.1 "boom" "boom" () rfl rfl rfl
  · exact hf.2.2.2.2.2.1 "e" "e" "e2" rfl rfl rfl
  · rw [hf.2.2.2.2.2.2 [0, 1] [] 0 0 0 (by decide) rfl]
    decide

/-- The two counter contributions of one batch sum to the batch size when
no item survived embedding, and to the surviving count otherwise. -/
theorem batch_contrib_sum {α : Type} (embedOk : α → Bool) (ok : Bool) (b : List α) :
    (Upload.batch_contrib embedOk ok b).1 + (Upload.batch_contrib embedOk ok b).2
      = if (b.filter embedOk).length = 0 then b.length
        else (b.filter embedOk).length := by
  unfold Upload.batch_contrib
  by_cases h : (b.filter embedOk).length = 0 <;> cases ok <;> simp [h]

/-- One batch never contributes more than its size to the two counters
combined. -/
theorem batch_contrib_sum_le {α : Type} (embedOk : α → Bool) (ok : Bool) (b : List α) :
    (Upload.batch_contrib embedOk ok b).1 + (Upload.batch_contrib embedOk ok b).2
      ≤ b.length := by
  rw [batch_contrib_sum]
  split
  · exact le_refl _
  · exact List.length_filter_le _ _

/-- A batch in which some but not all items survived embedding contributes
strictly less than its size to the two counters combined. -/
theorem batch_contrib_sum_lt {α : Type} (embedOk : α → Bool) (ok : Bool) (b : List α)
    (h1 : 0 < (b.filter embedOk).length) (h2 : (b.filter embedOk).length < b.length) :
    (Upload.batch_contrib embedOk ok b).1 + (Upload.batch_contrib embedOk ok b).2
      < b.length := by
  rw [batch_contrib_sum]
  split
  · omega
  · exact h2

/-- The summed totals of a run never exceed the number of items fed to
it. -/
theorem run_totals_sum_le {α : Type} (embedOk : α → Bool) (upsertOk : Nat → Bool) :
    ∀ (bs : List (List α)) (k : Nat),
      (Upload.run_totals embedOk upsertOk bs k).1
        + (Upload.run_totals embedOk upsertOk bs k).2 ≤ Upload.total_items bs
  | [], k => by simp [Upload.run_totals, Upload.total_items]
  | b :: rest, k => by
    have ih := run_totals_sum_le embedOk upsertOk rest (k + 1)
    have hc := batch_contrib_sum_le embedOk (upsertOk k) b
    simp only [Upload.run_totals, Upload.total_items, List.map_cons, List.sum_cons] at *
    omega

/-- With a mixed batch anywhere in the run, the summed totals are strictly
below the number of items fed to the run. -/
theorem run_totals_sum_lt {α : Type} (embedOk : α → Bool) (upsertOk : Nat → Bool) :
    ∀ (bs : List (List α)) (k j : Nat) (b : List α), bs.get? j = some b →
      0 < (b.filter embedOk).length → (b.filter embedOk).length < b.length →
      (Upload.run_totals embedOk upsertOk bs k).1
        + (Upload.run_totals embedOk upsertOk bs k).2 < Upload.total_items bs
  | [], _, j, b, hj, _, _ => by simp at hj
  | b0 :: rest, k, 0, b, hj, h1, h2 => by
    have hb : b0 = b := by simpa using hj
    subst hb
    have ih := run_totals_sum_le embedOk upsertOk rest (k + 1)
    have hc := batch_contrib_sum_lt embedOk (upsertOk k) b0 h1 h2
    simp only [Upload.run_totals, Upload.total_items, List.map_cons, List.sum_cons] at *
    omega
  | b0 :: rest, k, j + 1, b, hj, h1, h2 => by
    have hj' : rest.get? j = some b := by simpa using hj
    have ih := run_totals_sum_lt embedOk upsertOk rest (k + 1) j b hj' h1 h2
    have hc := batch_contrib_sum_le embedOk (upsertOk k) b0
    simp only [Upload.run_totals, Upload.total_items, List.map_cons, List.sum_cons] at *
    omega

/-- C10: the final `(successful_upserts, failed_upserts)` tallies never
exceed the number of prepared items, and an item whose embedding failed in
a batch where at least one other item survived is counted in neither
tally: a successfully upserted batch contributes exactly its surviving
count to the successes and nothing to the failures, so a run containing a
mixed batch ends with `successful_upserts + failed_upserts` strictly less
than the number of prepared items.  Only a batch with zero surviving
embeddings adds its full size to the failed count. -/
theorem C10_partial_batch_count_gap {α : Type} (embedOk : α → Bool)
    (upsertOk : Nat → Bool) (bs : List (List α)) :
    ((Upload.process_batches embedOk upsertOk bs 0 0 0).1
        + (Upload.process_batches embedOk upsertOk bs 0 0 0).2
      ≤ Upload.total_items bs) ∧
    (∀ b : List α, (b.filter embedOk).length ≠ 0 → upsertOk 0 = true →
      Upload.process_batches embedOk upsertOk [b] 0 0 0
        = ((b.filter embedOk).length, 0)) ∧
    (∀ (j : Nat) (b : List α), bs.get? j = some b →
      0 < (b.filter embedOk).length → (b.filter embedOk).length < b.length →
      (Upload.process_batches embedOk upsertOk bs 0 0 0).1
          + (Upload.process_batches embedOk upsertOk bs 0 0 0).2
        < Upload.total_items bs) ∧
    (∀ (b : List α) rest k s f, (b.filter embedOk).length = 0 →
      Upload.process_batches embedOk upsertOk (b :: rest) k s f
        = Upload.process_batches embedOk upsertOk rest (k + 1) s (f + b.length)) := by
  refine ⟨?_, ?_, ?_, ?_⟩
  · rw [process_batches_eq_totals]
    simpa using run_totals_sum_le embedOk upsertOk bs 0
  · intro b hne hk
    simp [Upload.process_batches, hne, hk]
  · intro j b hj h1 h2
    rw [process_batches_eq_totals]
    simpa using run_totals_sum_lt embedOk upsertOk bs 0 j b hj h1 h2
  · intro b rest k s f h0
    simp [Upload.process_batches, h0]

/-- Witness for C10: a batch of two prepared items of which only one
embeds successfully and whose upsert succeeds yields the tallies (1, 0) —
the embedding-failed item is in neither tally — and their sum 1 is
strictly below the 2 prepared items. -/
theorem C10_partial_batch_count_gap_witness :
    Upload.process_batches c10embedOk alwaysUpsertOk [[0, 1]] 0 0 0 = (1, 0) ∧
    (Upload.process_batches c10embedOk alwaysUpsertOk [[0, 1]] 0 0 0).1
        + (Upload.process_batches c10embedOk alwaysUpsertOk [[0, 1]] 0 0 0).2
      < Upload.total_items [[0, 1]] := by
  have h := C10_partial_batch_count_gap c10embedOk alwaysUpsertOk [[0, 1]]
  refine ⟨?_, h.2.2.1 0 [0, 1] rfl (by decide) (by decide)⟩
  rw [h.2.1 [0, 1] (by decide) rfl]
  decide

/-- The key `n` is absent from the cache holding keys `0, …, n-1`. -/
theorem cacheLookup_natCache (n : Nat) : cacheLookup (natCache n) n = none := by
  have hf : (natCache n).find? (fun e => decide (e.1 = n)) = none := by
    apply List.find?_eq_none.mpr
    intro p hp
    simp only [natCache, List.mem_map, List.mem_range] at hp
    obtain ⟨k, hk, rfl⟩ := hp
    simp only [decide_eq_true_eq]
    omega
  unfold cacheLookup
  rw [hf]
  rfl

/-- Feeding the distinct keys `0, …, n-1` to the `app.py` cache stores all
of them: no eviction ever happens. -/
theorem app_cache_after_range (n : Nat) :
    App.cache_after unitModelApp (List.range n) = natCache n := by
  induction n with
  | zero => rfl
  | succ n ih =>
    unfold App.cache_after at ih ⊢
    rw [List.range_succ, List.foldl_append, ih]
    simp only [List.foldl_cons, List.foldl_nil, App.embed_text, cacheLookup_natCache]
    simp [unitModelApp, natCache, List.range_succ]

/-- One `hybrid_chat.py` embed call preserves the cache bound. -/
theorem chat_embed_cache_length_le {α V : Type} [DecidableEq α] (model : α → V)
    (N : Nat) (hN : 1 ≤ N) (cache : List (α × V)) (t : α)
    (h : cache.length ≤ N) :
    ((HybridChat.embed_text model N cache t).2.1).length ≤ N := by
  unfold HybridChat.embed_text
  cases hl : cacheLookup cache t
  · by_cases hcap : N ≤ cache.length
    · have hlen : cache.length = N := le_antisymm h hcap
      simp [hcap, List.length_drop, hlen]
      omega
    · simp [hcap]
      omega
  · simpa using h

/-- Any run of `hybrid_chat.py` embed calls keeps the cache within the
bound it started under. -/
theorem chat_cache_fold_length_le {α V : Type} [DecidableEq α] (model : α → V)
    (N : Nat) (hN : 1 ≤ N) :
    ∀ (texts : List α) (cache : List (α × V)), cache.length ≤ N →
      (texts.foldl (fun c t => (HybridChat.embed_text model N c t).2.1) cache).length ≤ N
  | [], _, h => h
  | t :: ts, cache, h =>
    chat_cache_fold_length_le model N hN ts _
      (chat_embed_cache_length_le model N hN cache t h)

/-- Counterexample for C2: in the web service (`app.py`), `embed_text`
caches with no size cap at all — after 1001 distinct texts the cache holds
1001 entries, exceeding `CACHE_MAX_SIZE = 1000`, so the claimed invariant
does not hold for the web service. -/
theorem C2_web_cache_unbounded_counterexample :
    CACHE_MAX_SIZE < (App.cache_after unitModelApp (List.range 1001)).length := by
  rw [app_cache_after_range]
  simp [natCache, CACHE_MAX_SIZE]

/-- C2 (amended): in the interactive pipeline (`hybrid_chat.py`), the
embedding cache never exceeds `CACHE_MAX_SIZE` entries over any call
sequence started from the empty cache; an insert performed at capacity
evicts exactly the single oldest-inserted entry still present (the head of
the insertion order) before appending the new entry; and a cache hit
leaves the cache unchanged (strict FIFO — re-access does not refresh
position).  The web service (`app.py`) has no such bound: its `embed_text`
appends on every miss without any eviction. -/
theorem C2_fifo_cache_bound_interactive_only {α V : Type} [DecidableEq α]
    (model : α → V) (cache : List (α × V)) (t : α) (texts : List α) :
    (HybridChat.cache_after model CACHE_MAX_SIZE texts).length ≤ CACHE_MAX_SIZE ∧
    (cache.length = CACHE_MAX_SIZE → cacheLookup cache t = none →
      (HybridChat.embed_text model CACHE_MAX_SIZE cache t).2.1
        = cache.drop 1 ++ [(t, model t)]) ∧
    (∀ v, cacheLookup cache t = some v →
      HybridChat.embed_text model CACHE_MAX_SIZE cache t = (v, cache, false)) ∧
    (∀ (modelA : α → Option V) (v : V), cacheLookup cache t = none →
      modelA t = some v →
      (App.embed_text modelA cache t).2.1 = cache ++ [(t, v)]) := by
  refine ⟨?_, ?_, ?_, ?_⟩
  · exact chat_cache_fold_length_le model CACHE_MAX_SIZE (by norm_num [CACHE_MAX_SIZE])
      texts [] (by simp [CACHE_MAX_SIZE])
  · intro hlen hmiss
    unfold HybridChat.embed_text
    rw [hmiss]
    simp [hlen]
  · intro v hhit
    unfold HybridChat.embed_text
    rw [hhit]
  · intro modelA v hmiss hv
    unfold App.embed_text
    rw [hmiss, hv]

/-- Witness for the amended C2: at capacity 1000 (keys `0, …, 999`), the
fresh key 1000 evicts exactly the oldest key and is appended; a hit leaves
the cache untouched; and the web-service cache appends with no eviction. -/
theorem C2_fifo_cache_bound_interactive_only_witness :
    (HybridChat.embed_text unitModelChat CACHE_MAX_SIZE (natCache 1000) 1000).2.1
      = (natCache 1000).drop 1 ++ [(1000, ())] ∧
    HybridChat.embed_text unitModelChat CACHE_MAX_SIZE (natCache 1) 0
      = ((), natCache 1, false) ∧
    (App.embed_text unitModelApp (natCache 3) 3).2.1 = natCache 3 ++ [(3, ())] := by
  have h1000 := C2_fifo_cache_bound_interactive_only unitModelChat (natCache 1000) 1000 ([] : List ℕ)
  have h1 := C2_fifo_cache_bound_interactive_only unitModelChat (natCache 1) 0 ([] : List ℕ)
  have h3 := C2_fifo_cache_bound_interactive_only unitModelChat (natCache 3) 3 ([] : List ℕ)
  refine ⟨?_, ?_, ?_⟩
  · exact h1000.2.1 (by simp [natCache, CACHE_MAX_SIZE]) (cacheLookup_natCache 1000)
  · exact h1.2.2.1 () (by decide)
  · exact h3.2.2.2 unitModelApp () (cacheLookup_natCache 3) rfl

/-- Association-list lookup distributes over append. -/
theorem cacheLookup_append {α V : Type} [DecidableEq α] (c1 c2 : List (α × V)) (k : α) :
    cacheLookup (c1 ++ c2) k = (cacheLookup c1 k).or (cacheLookup c2 k) := by
  unfold cacheLookup
  rw [List.find?_append]
  cases c1.find? (fun e => decide (e.1 = k)) <;> simp

/-- A key absent from a cache is absent from any of its drops. -/
theorem cacheLookup_drop_none {α V : Type} [DecidableEq α] (cache : List (α × V))
    (k : α) (n : Nat) (h : cacheLookup cache k = none) :
    cacheLookup (cache.drop n) k = none := by
  unfold cacheLookup at h ⊢
  have hf : cache.find? (fun e => decide (e.1 = k)) = none :=
    Option.map_eq_none.mp h
  have hd : (cache.drop n).find? (fun e => decide (e.1 = k)) = none :=
    List.find?_eq_none.mpr fun p hp =>
      List.find?_eq_none.mp hf p (List.mem_of_mem_drop hp)
  rw [hd]
  rfl

/-- C9: calling `embed_text` a second time on the same text, with no
intervening call, is a cache hit: it returns the very vector of the first
call, leaves the cache unchanged, and does not invoke the underlying
model.  For the `app.py` variant this holds whenever the first call
returned a vector (a failed first call caches nothing). -/
theorem C9_second_embed_call_is_cache_hit {α V : Type} [DecidableEq α]
    (model : α → V) (modelA : α → Option V) (N : Nat)
    (cache cacheA : List (α × V)) (t : α) :
    (HybridChat.embed_text model N ((HybridChat.embed_text model N cache t).2.1) t
      = ((HybridChat.embed_text model N cache t).1,
         (HybridChat.embed_text model N cache t).2.1, false)) ∧
    (∀ v c1 b1, App.embed_text modelA cacheA t = (some v, c1, b1) →
      App.embed_text modelA c1 t = (some v, c1, false)) := by
  constructor
  · cases hl : cacheLookup cache t with
    | some v =>
      simp [HybridChat.embed_text, hl]
    | none =>
      have hl' : cacheLookup
          ((if N ≤ cache.length then cache.tail else cache) ++ [(t, model t)]) t
          = some (model t) := by
        rw [cacheLookup_append]
        have hnone : cacheLookup (if N ≤ cache.length then cache.tail else cache) t
            = none := by
          split
          · have hd := cacheLookup_drop_none cache t 1 hl
            rwa [List.drop_one] at hd
          · exact hl
        rw [hnone]
        simp [cacheLookup]
      simp [HybridChat.embed_text, hl, hl']
  · intro v c1 b1 hfirst
    cases hl : cacheLookup cacheA t with
    | some v0 =>
      have heq : App.embed_text modelA cacheA t = (some v0, cacheA, false) := by
        simp [App.embed_text, hl]
      rw [heq] at hfirst
      have hv : some v0 = some v := congrArg (fun p => p.1) hfirst
      have hc : cacheA = c1 := congrArg (fun p => p.2.1) hfirst
      cases Option.some.inj hv
      subst hc
      exact heq
    | none =>
      cases hm : modelA t with
      | none => simp [App.embed_text, hl, hm] at hfirst
      | some v0 =>
        simp only [App.embed_text, hl, hm] at hfirst
        have hv : v0 = v := by simpa using congrArg (·.1) hfirst
        have hc : cacheA ++ [(t, v0)] = c1 := by
          simpa using congrArg (·.2.1) hfirst
        subst hv
        subst hc
        have hl' : cacheLookup (cacheA ++ [(t, v0)]) t = some v0 := by
          rw [cacheLookup_append, hl]
          simp [cacheLookup]
        simp [App.embed_text, hl']

/-- Witness for C9: embedding the key 0 twice from the empty cache returns
the same vector, leaves the one-entry cache unchanged, and does not call
the model again (third component `false`), in both variants. -/
theorem C9_second_embed_call_is_cache_hit_witness :
    HybridChat.embed_text c9model 1000
        ((HybridChat.embed_text c9model 1000 [] 0).2.1) 0
      = ((HybridChat.embed_text c9model 1000 [] 0).1,
         (HybridChat.embed_text c9model 1000 [] 0).2.1, false) ∧
    App.embed_text c9modelApp [(0, [(0 : ℚ)])] 0 = (some [(0 : ℚ)], [(0, [(0 : ℚ)])], false) := by
  have h := C9_second_embed_call_is_cache_hit c9model c9modelApp 1000 [] [] 0
  exact ⟨h.1, h.2 [(0 : ℚ)] [(0, [(0 : ℚ)])] true rfl⟩

/-- A sum of squares is nonnegative. -/
theorem sumSq_nonneg (v : List ℝ) : 0 ≤ (v.map (fun x => x * x)).sum := by
  induction v with
  | nil => simp
  | cons x xs ih =>
    simp only [List.map_cons, List.sum_cons]
    nlinarith [mul_self_nonneg x]

/-- The sum of squares of an all-zero vector is zero. -/
theorem sumSq_eq_zero_of_all_zero (v : List ℝ) (h : ∀ x ∈ v, x = 0) :
    (v.map (fun x => x * x)).sum = 0 := by
  induction v with
  | nil => simp
  | cons x xs ih =>
    have hx : x = 0 := h x (by simp)
    have hxs := ih (fun y hy => h y (by simp [hy]))
    simp [hx, hxs]

/-- Dividing every component by `c` divides the sum of squares by
`c * c`. -/
theorem sumSq_map_div (v : List ℝ) (c : ℝ) :
    ((v.map (fun x => x / c)).map (fun x => x * x)).sum
      = (v.map (fun x => x * x)).sum / (c * c) := by
  induction v with
  | nil => simp
  | cons x xs ih =>
    simp only [List.map_cons, List.sum_cons, ih]
    rw [div_mul_div_comm, add_div]

/-- C8: the embedding pipeline returns the raw model vector divided by its
L2 norm whenever that norm is non-zero — and the result then has unit L2
norm — while a raw zero vector has zero norm and is returned unmodified,
with no division performed. -/
theorem C8_l2_normalization (v : List ℝ) :
    (Upload.l2norm v ≠ 0 →
      Upload.normalize_vector v = v.map (fun x => x / Upload.l2norm v) ∧
      Upload.l2norm (Upload.normalize_vector v) = 1) ∧
    ((∀ x ∈ v, x = 0) → Upload.normalize_vector v = v) := by
  constructor
  · intro hn
    have hform : Upload.normalize_vector v = v.map (fun x => x / Upload.l2norm v) := by
      unfold Upload.normalize_vector
      rw [if_neg hn]
    refine ⟨hform, ?_⟩
    have hs0 : 0 ≤ (v.map (fun x => x * x)).sum := sumSq_nonneg v
    have hss : (v.map (fun x => x * x)).sum ≠ 0 := by
      intro hz
      apply hn
      unfold Upload.l2norm
      rw [hz, Real.sqrt_zero]
    rw [hform]
    unfold Upload.l2norm
    rw [sumSq_map_div, Real.mul_self_sqrt hs0, div_self hss, Real.sqrt_one]
  · intro hz
    have h0 : Upload.l2norm v = 0 := by
      unfold Upload.l2norm
      rw [sumSq_eq_zero_of_all_zero v hz, Real.sqrt_zero]
    unfold Upload.normalize_vector
    rw [if_pos h0]

/-- Witness for C8: the vector [3, 4] has norm 5, so its normalization has
unit norm; the zero vector [0, 0] is returned unmodified. -/
theorem C8_l2_normalization_witness :
    Upload.l2norm (Upload.normalize_vector [(3 : ℝ), 4]) = 1 ∧
    Upload.normalize_vector [(0 : ℝ), 0] = [0, 0] := by
  have h34 := C8_l2_normalization [(3 : ℝ), 4]
  have h00 := C8_l2_normalization [(0 : ℝ), 0]
  have hnorm : Upload.l2norm [(3 : ℝ), 4] = 5 := by
    unfold Upload.l2norm
    norm_num
    rw [show (25 : ℝ) = 5 ^ 2 by norm_num, Real.sqrt_sq (by norm_num : (0:ℝ) ≤ 5)]
  refine ⟨(h34.1 ?_).2, h00.2 ?_⟩
  · rw [hnorm]
    norm_num
  · intro x hx
    simp only [List.mem_cons, List.not_mem_nil, or_false] at hx
    rcases hx with h | h <;> exact h

/-- A list that literally decomposes around `sub` contains `sub`. -/
theorem containsSub_of_eq_append (l sub r : List Char) :
    containsSub (l ++ (sub ++ r)) sub = true := by
  unfold containsSub
  rw [List.any_eq_true]
  refine ⟨l.length, ?_, ?_⟩
  · rw [List.mem_range]
    simp only [List.length_append]
    omega
  · rw [List.drop_left, List.take_left]
    simp

set_option maxRecDepth 100000 in
/-- Counterexample for C4: the interactive pipeline's `build_prompt`
(`hybrid_chat.py`) assembles, for empty match and fact lists, a user
message consisting of the query, two empty context sections under their
headers and the closing instruction — it contains no notice that no
context is available (in particular not the notice text the web service
uses), so the claim fails for this prompt builder. -/
theorem C4_chat_builder_no_notice_counterexample :
    HybridChat.build_prompt_user constFmt "best beach near Da Nang" [] []
      = "User Query: best beach near Da Nang\n\n=== Semantic Search Results (Vector DB) ===\n\n\n=== Graph Relationships (Knowledge Graph) ===\n\n\nBased on the above information, provide a comprehensive answer. Include specific node IDs and explain your reasoning step-by-step." ∧
    containsSub (HybridChat.build_prompt_user constFmt "best beach near Da Nang" [] []).data
      App.no_context_notice.data = false := by
  constructor
  · decide
  · decide

/-- C4 (amended): in the web service's `build_prompt` (`app.py`), whenever
both the match list and the graph-fact list are empty, the assembled user
message is the query followed by the explicit no-context notice (telling
the model to fall back to general knowledge) in place of the context
lists; the interactive pipeline's `build_prompt` (`hybrid_chat.py`) has no
such fallback and emits empty sections under their headers. -/
theorem C4_empty_context_notice_web_service (fmtScore : ℚ → String) (q : String) :
    (App.build_prompt_user fmtScore q [] []).data
      = ("User Query: " ++ q ++ "\n\n").data
        ++ (App.no_context_notice.data
          ++ ("\n\nProvide a comprehensive, helpful answer with specific recommendations.").data) ∧
    containsSub (App.build_prompt_user fmtScore q [] []).data
      App.no_context_notice.data = true := by
  have hdata : (App.build_prompt_user fmtScore q [] []).data
      = ("User Query: " ++ q ++ "\n\n").data
        ++ (App.no_context_notice.data
          ++ ("\n\nProvide a comprehensive, helpful answer with specific recommendations.").data) := by
    simp [App.build_prompt_user, App.context_section, App.no_context_notice,
      String.data_append, List.append_assoc]
  refine ⟨hdata, ?_⟩
  rw [hdata]
  exact containsSub_of_eq_append _ _ _

/-- Every record is either kept or skipped: the kept and skipped counts
add up to the input size plus the initial accumulators. -/
theorem prepare_items_count :
    ∀ (ns : List Upload.SourceRecord) (seen : List String)
      (items : List (String × String)) (skipped : Nat),
      (Upload.prepare_items ns seen items skipped).1.length
          + (Upload.prepare_items ns seen items skipped).2
        = items.length + skipped + ns.length
  | [], _, items, skipped => by simp [Upload.prepare_items]
  | n :: rest, seen, items, skipped => by
    by_cases hb : Upload.is_blank (Upload.computed_text n)
    · have ih := prepare_items_count rest seen items (skipped + 1)
      simp only [Upload.prepare_items, hb, if_true]
      rw [ih]
      simp [List.length_cons]
      omega
    · by_cases hseen : n.id ∈ seen
      · have ih := prepare_items_count rest seen items (skipped + 1)
        simp only [Upload.prepare_items, hb, hseen, if_false, if_true,
          Bool.false_eq_true]
        rw [ih]
        simp [List.length_cons]
        omega
      · have ih := prepare_items_count rest (n.id :: seen)
          (items ++ [(n.id, Upload.computed_text n)]) skipped
        simp only [Upload.prepare_items, hb, hseen, if_false, Bool.false_eq_true]
        rw [ih]
        simp [List.length_cons, List.length_append]
        omega

/-- The ids of the kept items stay distinct: a kept id is recorded in
`seen_ids` and later records with a recorded id are rejected. -/
theorem prepare_items_ids_nodup :
    ∀ (ns : List Upload.SourceRecord) (seen : List String)
      (items : List (String × String)) (skipped : Nat),
      (∀ p ∈ items, p.1 ∈ seen) → (items.map Prod.fst).Nodup →
      ((Upload.prepare_items ns seen items skipped).1.map Prod.fst).Nodup
  | [], _, items, skipped, _, hnd => by simpa [Upload.prepare_items] using hnd
  | n :: rest, seen, items, skipped, hsub, hnd => by
    by_cases hb : Upload.is_blank (Upload.computed_text n)
    · simp only [Upload.prepare_items, hb, if_true]
      exact prepare_items_ids_nodup rest seen items (skipped + 1) hsub hnd
    · by_cases hseen : n.id ∈ seen
      · simp only [Upload.prepare_items, hb, hseen, if_false, if_true,
          Bool.false_eq_true]
        exact prepare_items_ids_nodup rest seen items (skipped + 1) hsub hnd
      · simp only [Upload.prepare_items, hb, hseen, if_false, Bool.false_eq_true]
        apply prepare_items_ids_nodup rest (n.id :: seen)
          (items ++ [(n.id, Upload.computed_text n)]) skipped
        · intro p hp
          rcases List.mem_append.mp hp with h | h
          · exact List.mem_cons_of_mem _ (hsub p h)
          · simp only [List.mem_singleton] at h
            subst h
            exact List.mem_cons_self _ _
        · have hnotin : n.id ∉ items.map Prod.fst := by
            intro hmem
            rcases List.mem_map.mp hmem with ⟨p, hp, hid⟩
            exact hseen (hid ▸ hsub p hp)
          simp [List.nodup_append, hnd, hnotin]

/-- Every kept item has non-blank semantic text. -/
theorem prepare_items_nonblank :
    ∀ (ns : List Upload.SourceRecord) (seen : List String)
      (items : List (String × String)) (skipped : Nat),
      (∀ p ∈ items, Upload.is_blank p.2 = false) →
      ∀ p ∈ (Upload.prepare_items ns seen items skipped).1,
        Upload.is_blank p.2 = false
  | [], _, items, skipped, h => by simpa [Upload.prepare_items] using h
  | n :: rest, seen, items, skipped, h => by
    by_cases hb : Upload.is_blank (Upload.computed_text n)
    · simp only [Upload.prepare_items, hb, if_true]
      exact prepare_items_nonblank rest seen items (skipped + 1) h
    · by_cases hseen : n.id ∈ seen
      · simp only [Upload.prepare_items, hb, hseen, if_false, if_true,
          Bool.false_eq_true]
        exact prepare_items_nonblank rest seen items (skipped + 1) h
      · simp only [Upload.prepare_items, hb, hseen, if_false, Bool.false_eq_true]
        apply prepare_items_nonblank rest (n.id :: seen)
          (items ++ [(n.id, Upload.computed_text n)]) skipped
        intro p hp
        rcases List.mem_append.mp hp with hmem | hmem
        · exact h p hmem
        · simp only [List.mem_singleton] at hmem
          subst hmem
          exact Bool.eq_false_iff.mpr hb

/-- When the ids of the accumulated items all lie in `seen`, an id outside
`seen` is not among them. -/
theorem items_find?_eq_none {items : List (String × String)} {seen : List String}
    {x : String} (hsub : ∀ p ∈ items, p.1 ∈ seen) (hx : x ∉ seen) :
    items.find? (fun p => decide (p.1 = x)) = none := by
  apply List.find?_eq_none.mpr
  intro p hp
  simp only [decide_eq_true_eq]
  intro he
  exact hx (he ▸ hsub p hp)

/-- Once an id is recorded in `seen`, processing more records never adds
another item with that id: its kept item is already settled. -/
theorem prepare_items_find_mem :
    ∀ (ns : List Upload.SourceRecord) (seen : List String)
      (items : List (String × String)) (skipped : Nat) (x : String), x ∈ seen →
      (Upload.prepare_items ns seen items skipped).1.find? (fun p => decide (p.1 = x))
        = items.find? (fun p => decide (p.1 = x))
  | [], _, items, skipped, x, _ => by simp [Upload.prepare_items]
  | n :: rest, seen, items, skipped, x, hx => by
    by_cases hb : Upload.is_blank (Upload.computed_text n)
    · simp only [Upload.prepare_items, hb, if_true]
      exact prepare_items_find_mem rest seen items (skipped + 1) x hx
    · by_cases hseen : n.id ∈ seen
      · simp only [Upload.prepare_items, hb, hseen, if_false, if_true,
          Bool.false_eq_true]
        exact prepare_items_find_mem rest seen items (skipped + 1) x hx
      · simp only [Upload.prepare_items, hb, hseen, if_false, Bool.false_eq_true]
        have hx' : x ∈ n.id :: seen := List.mem_cons_of_mem _ hx
        rw [prepare_items_find_mem rest (n.id :: seen)
          (items ++ [(n.id, Upload.computed_text n)]) skipped x hx']
        rw [List.find?_append]
        have hne : (¬ n.id = x) := fun he => hseen (he ▸ hx)
        simp [hne]

/-- For an id not yet seen, the kept item is exactly the first input record
with that id and non-blank computed text. -/
theorem prepare_items_find_fresh :
    ∀ (ns : List Upload.SourceRecord) (seen : List String)
      (items : List (String × String)) (skipped : Nat) (x : String), x ∉ seen →
      (∀ p ∈ items, p.1 ∈ seen) →
      (Upload.prepare_items ns seen items skipped).1.find? (fun p => decide (p.1 = x))
        = (ns.find? (fun n =>
              !Upload.is_blank (Upload.computed_text n) && decide (n.id = x))).map
            (fun n => (n.id, Upload.computed_text n))
  | [], seen, items, skipped, x, hx, hsub => by
    simp [Upload.prepare_items, items_find?_eq_none hsub hx]
  | n :: rest, seen, items, skipped, x, hx, hsub => by
    by_cases hb : Upload.is_blank (Upload.computed_text n)
    · rw [List.find?_cons_of_neg _ (by simp [hb])]
      simp only [Upload.prepare_items, hb, if_true]
      exact prepare_items_find_fresh rest seen items (skipped + 1) x hx hsub
    · have hbf : Upload.is_blank (Upload.computed_text n) = false :=
        Bool.eq_false_iff.mpr hb
      by_cases hseen : n.id ∈ seen
      · have hne : (¬ n.id = x) := fun he => hx (he ▸ hseen)
        rw [List.find?_cons_of_neg _ (by simp [hbf, hne])]
        simp only [Upload.prepare_items, hbf, Bool.false_eq_true, if_false, hseen,
          if_true]
        exact prepare_items_find_fresh rest seen items (skipped + 1) x hx hsub
      · by_cases hid : n.id = x
        · subst hid
          rw [List.find?_cons_of_pos _ (by simp [hbf])]
          simp only [Upload.prepare_items, hbf, Bool.false_eq_true, if_false, hseen,
            Option.map_some]
          rw [prepare_items_find_mem rest (n.id :: seen)
            (items ++ [(n.id, Upload.computed_text n)]) skipped n.id
            (List.mem_cons_self _ _)]
          rw [List.find?_append, items_find?_eq_none hsub hx]
          simp
        · rw [List.find?_cons_of_neg _ (by simp [hbf, hid])]
          simp only [Upload.prepare_items, hbf, Bool.false_eq_true, if_false, hseen,
            if_true]
          apply prepare_items_find_fresh rest (n.id :: seen)
            (items ++ [(n.id, Upload.computed_text n)]) skipped x
          · intro hmem
            rcases List.mem_cons.mp hmem with h | h
            · exact hid h.symm
            · exact hx h
          · intro p hp
            rcases List.mem_append.mp hp with h | h
            · exact List.mem_cons_of_mem _ (hsub p h)
            · simp only [List.mem_singleton] at h
              subst h
              exact List.mem_cons_self _ _

/-- Counterexample for C7: on the input `[c7r1, c7r2]` — two records with
the same id "x" whose first occurrence has whitespace-only text — the
preparation loop keeps the *second* record (text "hello"), not the first:
a blank first occurrence is skipped without reserving its id, so the later
duplicate is not excluded.  One record is counted as skipped. -/
theorem C7_blank_first_duplicate_counterexample :
    (Upload.prepare [c7r1, c7r2]).1 = [("x", "hello")] ∧
    Upload.computed_text c7r1 = " " ∧
    Upload.computed_text c7r2 = "hello" ∧
    (Upload.prepare [c7r1, c7r2]).1 ≠ [("x", Upload.computed_text c7r1)] ∧
    (Upload.prepare [c7r1, c7r2]).2 = 1 := by
  refine ⟨by decide, by decide, by decide, by decide, by decide⟩

/-- C7 (amended): ingestion preparation keeps at most one record per
identifier — kept ids are pairwise distinct — and every kept record has
non-blank computed semantic text (explicit `semantic_text` field, else the
description truncated to 1000 characters); the kept record for an id is
the *first* record in input order with that id and non-blank text (a blank
first occurrence does not reserve its id), later same-id occurrences are
excluded, and every excluded record — blank or duplicate — is counted in
`skipped`, so kept + skipped equals the input size. -/
theorem C7_dedupe_first_nonblank_wins (ns : List Upload.SourceRecord) (x : String) :
    ((Upload.prepare ns).1.map Prod.fst).Nodup ∧
    (∀ p ∈ (Upload.prepare ns).1, Upload.is_blank p.2 = false) ∧
    ((Upload.prepare ns).1.length + (Upload.prepare ns).2 = ns.length) ∧
    ((Upload.prepare ns).1.find? (fun p => decide (p.1 = x))
      = (ns.find? (fun n =>
            !Upload.is_blank (Upload.computed_text n) && decide (n.id = x))).map
          (fun n => (n.id, Upload.computed_text n))) := by
  refine ⟨?_, ?_, ?_, ?_⟩
  · exact prepare_items_ids_nodup ns [] [] 0 (by simp) (by simp)
  · exact prepare_items_nonblank ns [] [] 0 (by simp)
  · simpa using prepare_items_count ns [] [] 0
  · exact prepare_items_find_fresh ns [] [] 0 x (by simp) (by simp)
